import Mathlib

/-!
Shallow embedding of the data-acquisition core of `src/projstat.js`:
link resolution, transport cascade, payload normalization, facet
resolution and row filtering, with theorems checking the specification's
claims against the embedded code.

JavaScript strings are modelled as Lean `String`; JS objects built by
successive property assignment are modelled as insertion-ordered
association lists (`List (String × String)`); `undefined`/`null` become
`Option`; thrown exceptions become `Except`.
-/

/-- Decidable equality for `Except`, used to evaluate the embedded
fallible operations on concrete inputs. -/
instance {ε α : Type} [DecidableEq ε] [DecidableEq α] : DecidableEq (Except ε α) := fun a b =>
  match a, b with
  | .ok x, .ok y =>
    if h : x = y then .isTrue (by rw [h]) else .isFalse (by intro he; cases he; exact h rfl)
  | .error x, .error y =>
    if h : x = y then .isTrue (by rw [h]) else .isFalse (by intro he; cases he; exact h rfl)
  | .ok _, .error _ => .isFalse (by intro h; cases h)
  | .error _, .ok _ => .isFalse (by intro h; cases h)

/-- Character class of the JS regex `\s` restricted to ASCII
(space, tab, line feed, carriage return, vertical tab, form feed). -/
def isJsSpace (c : Char) : Bool :=
  c == ' ' || c == '\t' || c == '\n' || c == '\r' || c == '\x0b' || c == '\x0c'

/-- Embedding of JS `String.prototype.trim` (ASCII whitespace). -/
def jsTrim (s : String) : String :=
  String.mk (((s.data.dropWhile isJsSpace).reverse.dropWhile isJsSpace).reverse)

/-- Embedding of JS `String.prototype.toLowerCase` on ASCII text. -/
def jsToLowerStr (s : String) : String :=
  String.mk (s.data.map Char.toLower)

/-- Embedding of the JS truthiness idiom `a || b` on strings:
the empty string is falsy, every other string is truthy. -/
def jsOrStr (a b : String) : String :=
  if a = "" then b else a

/-- Character class `[a-z0-9]` used by `normalizeHeader` after lowercasing. -/
def isLowerAlnum (c : Char) : Bool :=
  ('a' ≤ c && c ≤ 'z') || ('0' ≤ c && c ≤ '9')

/-- Auxiliary for the regex replacement `\s+` → a single space: the flag
records whether the previous character was whitespace (so a run is
collapsed to the single space emitted at its first character). -/
def collapseWsAux : Bool → List Char → List Char
  | _, [] => []
  | prevWs, c :: rest =>
    if isJsSpace c then
      if prevWs then collapseWsAux true rest
      else ' ' :: collapseWsAux true rest
    else c :: collapseWsAux false rest

/-- Embedding of `normalizeHeader` (src/projstat.js:19-27): trim,
lowercase, turn parentheses into spaces, turn every character that is not
`[a-z0-9\s]` into a space, collapse whitespace runs, trim. -/
def normalizeHeader (value : String) : String :=
  let s1 := (jsTrim value).data.map Char.toLower
  let s2 := s1.map (fun c => if c == '(' || c == ')' then ' ' else c)
  let s3 := s2.map (fun c => if isLowerAlnum c || isJsSpace c then c else ' ')
  jsTrim (String.mk (collapseWsAux false s3))

/-- Column of the uniform table model (src/projstat.js `mapPayload`,
`parseCsvText` and the OpenSheet branch all build this shape). -/
structure Column where
  key : String
  label : String
  type : String
deriving DecidableEq, Repr

/-- A row is a JS object keyed by column key, modelled as an
insertion-ordered association list. -/
abbrev RowObj := List (String × String)

/-- The uniform `{ columns, rows }` table model. -/
structure Table where
  columns : List Column
  rows : List RowObj
deriving DecidableEq, Repr

/-- Embedding of the JS property assignment `obj[k] = v`: an existing key
keeps its position and gets the new value, a new key is appended. -/
def objSet (row : RowObj) (k v : String) : RowObj :=
  if row.any (fun p => p.1 == k) then
    row.map (fun p => if p.1 == k then (k, v) else p)
  else row ++ [(k, v)]

/-- Embedding of the JS read `String(row[key] ?? "")` for string-valued
objects: the value at the key, or the empty string when absent. -/
def rowVal (row : RowObj) (key : String) : String :=
  ((row.find? (fun p => p.1 == key)).map (fun p => p.2)).getD ""

/-- Auxiliary state machine of `parseCsvLine` (src/projstat.js:226-255):
arguments are the remaining characters, the in-quotes flag, the current
field (reversed is not used: kept in order), and the fields already
emitted. A doubled quote inside quotes emits one literal quote; a quote
otherwise toggles the flag; a comma outside quotes ends the field. -/
def parseCsvLineAux : List Char → Bool → List Char → List (List Char) → List (List Char)
  | [], _, cur, acc => acc ++ [cur]
  | '"' :: '"' :: rest, true, cur, acc => parseCsvLineAux rest true (cur ++ ['"']) acc
  | '"' :: rest, true, cur, acc => parseCsvLineAux rest false cur acc
  | '"' :: rest, false, cur, acc => parseCsvLineAux rest true cur acc
  | ',' :: rest, false, cur, acc => parseCsvLineAux rest false [] (acc ++ [cur])
  | c :: rest, inQ, cur, acc => parseCsvLineAux rest inQ (cur ++ [c]) acc

/-- Embedding of `parseCsvLine` (src/projstat.js:226-255). -/
def parseCsvLine (line : String) : List String :=
  (parseCsvLineAux line.data false [] []).map String.mk

/-- Auxiliary for the split on the JS regex `\r?\n`: a CRLF pair or a lone
LF ends the current line; a carriage return not followed by a line feed
stays inside its line, exactly as with the regex. -/
def splitLinesAux : List Char → List Char → List (List Char)
  | [], cur => [cur]
  | '\r' :: '\n' :: rest, cur => cur :: splitLinesAux rest []
  | '\n' :: rest, cur => cur :: splitLinesAux rest []
  | c :: rest, cur => splitLinesAux rest (cur ++ [c])

/-- Embedding of `String.prototype.split` on the JS regex `\r?\n` in
`parseCsvText`. -/
def splitJsLines (s : String) : List String :=
  (splitLinesAux s.data []).map String.mk

/-- Embedding of the replacement of a leading byte-order mark by the
empty string in `parseCsvText`. -/
def stripBom (s : String) : String :=
  match s.data with
  | c :: rest => if c = '\uFEFF' then String.mk rest else s
  | [] => s

/-- Embedding of `parseCsvText` (src/projstat.js:257-286): strip the BOM,
split into lines, drop blank lines, fail when nothing remains, take the
first line as headers and map every later line to a row object keyed by
the derived column keys; missing trailing fields become the empty string
and every value is trimmed. -/
def parseCsvText (csvText : String) : Except String Table :=
  let lines := (splitJsLines (stripBom csvText)).filter (fun line => jsTrim line ≠ "")
  match lines with
  | [] => .error "No rows found in CSV export."
  | headerLine :: dataLines =>
    let headerValues := parseCsvLine headerLine
    let columns := headerValues.enum.map (fun p =>
      { key := jsOrStr (normalizeHeader p.2) ("column " ++ toString (p.1 + 1)),
        label := jsTrim (jsOrStr p.2 ("Column " ++ toString (p.1 + 1))),
        type := "string" : Column })
    let rows := dataLines.map (fun line =>
      let values := parseCsvLine line
      columns.enum.foldl (fun mapped p =>
        objSet mapped p.2.key (jsTrim ((values.get? p.1).getD ""))) [])
    .ok { columns := columns, rows := rows }


/-- JSON scalar values that can appear in a gviz cell, as far as this
page distinguishes them. -/
inductive JsValue where
  | str (s : String)
  | num (n : Int)
  | boolean (b : Bool)
deriving DecidableEq, Repr

/-- Embedding of the JS coercion `String(value)` on the scalar values
above (integral numbers print in decimal, as in JS). -/
def jsToString : JsValue → String
  | .str s => s
  | .num n => toString n
  | .boolean b => if b then "true" else "false"

/-- A gviz cell: an optional display value `f` and an optional raw value
`v` (`none` covers both `null` and an absent property, which the code
treats alike through `== null` and `?? `). -/
structure Cell where
  f : Option JsValue := none
  v : Option JsValue := none
deriving DecidableEq, Repr

/-- A gviz column descriptor; an absent `label`/`type` is modelled as the
empty string, which the code treats identically (both are falsy and
stringify to the fallback). -/
structure GCol where
  label : String := ""
  type : String := ""
deriving DecidableEq, Repr

/-- A gviz row: the `c` array of cells, each possibly `null`. -/
structure GRow where
  c : Option (List (Option Cell)) := none
deriving DecidableEq, Repr

/-- The `table` member of a gviz payload. -/
structure GTable where
  cols : List GCol := []
  rows : List GRow := []
deriving DecidableEq, Repr

/-- A gviz payload as consumed by `mapPayload`. -/
structure Payload where
  table : Option GTable := none
deriving DecidableEq, Repr

/-- Greedy run of decimal digits (the regex `\d+`): its numeric value and
the rest of the input; fails when no digit is present. -/
def parseNatDigits (l : List Char) : Option (Nat × List Char) :=
  let ds := l.takeWhile Char.isDigit
  if ds.isEmpty then none
  else some (ds.foldl (fun a c => a * 10 + (c.toNat - 48)) 0, l.dropWhile Char.isDigit)

/-- Literal match at the start of the input: the rest of the input, or
failure. -/
def stripLit (lit l : List Char) : Option (List Char) :=
  if l.take lit.length = lit then some (l.drop lit.length) else none

/-- Embedding of the regex match `^Date\( digits , digits , digits` used by
`formatCellValue` (src/projstat.js:194): anything may follow the third
number. -/
def matchDatePattern (s : String) : Option (Nat × Nat × Nat) := do
  let rest ← stripLit "Date(".data s.data
  let (y, rest) ← parseNatDigits rest
  let rest ← stripLit [','] rest
  let (m, rest) ← parseNatDigits rest
  let rest ← stripLit [','] rest
  let (d, _) ← parseNatDigits rest
  pure (y, m, d)

/-- The raw-value half of `formatCellValue`: empty string for a missing
raw value, the locale date for a date-typed cell whose raw string matches
the serialized `Date(...)` pattern, and plain stringification otherwise. -/
def formatRawValue (locale : Nat → Nat → Nat → String)
    (v : Option JsValue) (columnType : String) : String :=
  match v with
  | none => ""
  | some value =>
    if columnType = "date" then
      match value with
      | .str s =>
        match matchDatePattern s with
        | some (y, m, d) => locale y m d
        | none => jsToString value
      | _ => jsToString value
    else jsToString value

/-- Embedding of `formatCellValue` (src/projstat.js:182-204). The browser
call `new Date(year, month, day).toLocaleDateString()` is kept abstract
as the parameter `locale`, applied to the year, the zero-based month and
the day captured from the raw value. -/
def formatCellValue (locale : Nat → Nat → Nat → String)
    (cell : Option Cell) (columnType : String) : String :=
  match cell with
  | none => ""
  | some c =>
    match c.f with
    | some (.str s) =>
      if jsTrim s ≠ "" then s else formatRawValue locale c.v columnType
    | _ => formatRawValue locale c.v columnType

/-- Embedding of `mapPayload` (src/projstat.js:206-224): derive a column
per gviz column (normalized-header key with a positional placeholder for
an empty normalization), then map each gviz row to an object holding the
formatted value of its cell under every column key. -/
def mapPayload (locale : Nat → Nat → Nat → String) (payload : Payload) : Table :=
  let columns := ((payload.table.map GTable.cols).getD []).enum.map (fun p =>
    { key := jsOrStr (normalizeHeader p.2.label) ("column " ++ toString (p.1 + 1)),
      label := jsTrim (jsOrStr p.2.label ("Column " ++ toString (p.1 + 1))),
      type := jsOrStr p.2.type "string" : Column })
  let rows := ((payload.table.map GTable.rows).getD []).map (fun row =>
    columns.enum.foldl (fun mapped p =>
      objSet mapped p.2.key
        (formatCellValue locale (((row.c.getD []).get? p.1).join) p.2.type)) [])
  { columns := columns, rows := rows }

/-- Embedding of the OpenSheet normalization inlined in
`fetchSheetMappedData` (src/projstat.js:357-371): the first record's keys
become the columns, every record becomes a row object holding the trimmed
value found under the column's original label. -/
def mapOpenSheetRows (rows : List RowObj) : Table :=
  let firstRow := rows.headD []
  let columns := firstRow.enum.map (fun p =>
    { key := jsOrStr (normalizeHeader p.2.1) ("column " ++ toString (p.1 + 1)),
      label := jsTrim (jsOrStr p.2.1 ("Column " ++ toString (p.1 + 1))),
      type := "string" : Column })
  let mappedRows := rows.map (fun row =>
    columns.foldl (fun mapped column =>
      objSet mapped column.key (jsTrim (rowVal row column.label))) [])
  { columns := columns, rows := mappedRows }

/-- Character class of the regex `[a-zA-Z0-9-_]` used by every
identifier pattern in src/projstat.js. -/
def isIdChar (c : Char) : Bool :=
  ('a' ≤ c && c ≤ 'z') || ('A' ≤ c && c ≤ 'Z') || ('0' ≤ c && c ≤ '9') || c == '-' || c == '_'

/-- Whether the literal `lit` occurs at the very start of `l`. -/
def litMatchesAt (lit l : List Char) : Bool :=
  l.take lit.length == lit

/-- Embedding of the regex search `lit([a-zA-Z0-9-_]{min,})` for a set of
same-shape literal alternatives: scan left to right for a position where
one alternative matches and is followed by at least `minLen` identifier
characters, and capture the maximal identifier run there. -/
def scanCaptureMin (lits : List (List Char)) (minLen : Nat) : List Char → Option (List Char)
  | [] => none
  | c :: rest =>
    match lits.find? (fun lit => litMatchesAt lit (c :: rest)) with
    | some lit =>
      let cap := ((c :: rest).drop lit.length).takeWhile isIdChar
      if minLen ≤ cap.length then some cap else scanCaptureMin lits minLen rest
    | none => scanCaptureMin lits minLen rest

/-- The components of a browser `URL` object that src/projstat.js reads:
protocol scheme, lowercased hostname, pathname, query string (without the
leading question mark) and fragment (with its leading hash mark, as in
the `hash` property). -/
structure UrlModel where
  scheme : String
  hostname : String
  pathname : String
  search : String
  hash : String
deriving DecidableEq, Repr

/-- Splitting a character list on a separator character. -/
def splitOnCharAux (sep : Char) : List Char → List Char → List (List Char)
  | [], cur => [cur]
  | c :: rest, cur =>
    if c = sep then cur :: splitOnCharAux sep rest []
    else splitOnCharAux sep rest (cur ++ [c])

/-- Embedding of `URLSearchParams` construction from a query string:
split on ampersands, split each non-empty part at its first equals sign
(percent-decoding is not modelled; no claim involves an encoded value). -/
def parseQuery (s : String) : List (String × String) :=
  if s = "" then []
  else (splitOnCharAux '&' s.data []).filterMap (fun part =>
    if part.isEmpty then none
    else
      let key := part.takeWhile (fun c => c ≠ '=')
      let rest := part.dropWhile (fun c => c ≠ '=')
      let value := match rest with
        | _ :: t => t
        | [] => []
      some (String.mk key, String.mk value))

/-- Embedding of `URLSearchParams.get` followed by the `|| ""` idiom:
the first value under the name, or the empty string. -/
def paramGet (params : List (String × String)) (name : String) : String :=
  ((params.find? (fun p => p.1 == name)).map (fun p => p.2)).getD ""

/-- Embedding of the regex test `^https?:\/\/` with the `i` flag. -/
def hasHttpScheme (s : String) : Bool :=
  jsToLowerStr (String.mk (s.data.take 7)) == "http://" ||
    jsToLowerStr (String.mk (s.data.take 8)) == "https://"

/-- Characters this model accepts in a hostname; a URL whose authority
steps outside this set is treated as unparseable, as `new URL` rejects
the illegal characters among them. -/
def isHostChar (c : Char) : Bool :=
  ('a' ≤ c && c ≤ 'z') || ('A' ≤ c && c ≤ 'Z') || ('0' ≤ c && c ≤ '9') ||
    c == '.' || c == '-' || c == '_'

/-- Embedding of `new URL` on absolute http(s) URLs: split the text after
the scheme into authority, path, query and fragment, drop user
information and port from the authority, lowercase the hostname, and use
"/" for an empty path. Parsing fails when the hostname is empty or holds
an illegal character. -/
def parseUrl (s : String) : Option UrlModel :=
  let schemeRest : Option (String × List Char) :=
    if jsToLowerStr (String.mk (s.data.take 8)) == "https://" then some ("https", s.data.drop 8)
    else if jsToLowerStr (String.mk (s.data.take 7)) == "http://" then some ("http", s.data.drop 7)
    else none
  match schemeRest with
  | none => none
  | some (scheme, rest) =>
    let notAuthEnd := fun (c : Char) => !(c == '/' || c == '?' || c == '#')
    let auth := rest.takeWhile notAuthEnd
    let tail0 := rest.dropWhile notAuthEnd
    let hostPort := (auth.reverse.takeWhile (fun c => c ≠ '@')).reverse
    let host := hostPort.takeWhile (fun c => c ≠ ':')
    if host.isEmpty || !(host.all isHostChar) then none
    else
      let notPathEnd := fun (c : Char) => !(c == '?' || c == '#')
      let path := tail0.takeWhile notPathEnd
      let tail1 := tail0.dropWhile notPathEnd
      let searchFrag : List Char × List Char :=
        match tail1 with
        | '?' :: t => (t.takeWhile (fun c => c ≠ '#'), t.dropWhile (fun c => c ≠ '#'))
        | _ => ([], tail1)
      let hash : String :=
        match searchFrag.2 with
        | '#' :: t => "#" ++ String.mk t
        | _ => ""
      some { scheme := scheme,
             hostname := jsToLowerStr (String.mk host),
             pathname := if path.isEmpty then "/" else String.mk path,
             search := String.mk searchFrag.1,
             hash := hash }

/-- Embedding of `extractSheetId` (src/projstat.js:96-118): spreadsheet
path pattern, then Drive file path pattern, then the `id` and `key` query
parameters. -/
def extractSheetId (url : UrlModel) : String :=
  match scanCaptureMin ["/spreadsheets/d/".data] 1 url.pathname.data with
  | some cap => String.mk cap
  | none =>
    match scanCaptureMin ["/file/d/".data] 1 url.pathname.data with
    | some cap => String.mk cap
    | none =>
      let idParam := jsTrim (paramGet (parseQuery url.search) "id")
      if idParam ≠ "" then idParam
      else
        let keyParam := jsTrim (paramGet (parseQuery url.search) "key")
        if keyParam ≠ "" then keyParam else ""

/-- Embedding of `extractSheetIdFromRaw` (src/projstat.js:77-94): the
four identifier patterns, each requiring at least 20 identifier
characters, tried in order over the raw text. -/
def extractSheetIdFromRaw (rawValue : String) : String :=
  match scanCaptureMin ["/spreadsheets/d/".data] 20 rawValue.data with
  | some cap => String.mk cap
  | none =>
    match scanCaptureMin ["?id=".data, "&id=".data] 20 rawValue.data with
    | some cap => String.mk cap
    | none =>
      match scanCaptureMin ["?key=".data, "&key=".data] 20 rawValue.data with
      | some cap => String.mk cap
      | none =>
        match scanCaptureMin ["/file/d/".data] 20 rawValue.data with
        | some cap => String.mk cap
        | none => ""

/-- The URL object built by the template
`https://docs.google.com/spreadsheets/d/ID/edit`; for an identifier drawn
from `[a-zA-Z0-9-_]` the browser parser decomposes that template into
exactly these components. -/
def bareIdUrl (id : String) : UrlModel :=
  { scheme := "https", hostname := "docs.google.com",
    pathname := "/spreadsheets/d/" ++ id ++ "/edit", search := "", hash := "" }

/-- Embedding of `URL.prototype.toString` for the models built here. -/
def urlToString (url : UrlModel) : String :=
  url.scheme ++ "://" ++ url.hostname ++ url.pathname ++
    (if url.search = "" then "" else "?" ++ url.search) ++ url.hash

/-- Whether `s` ends with the suffix `suf` (JS `String.prototype.endsWith`). -/
def strEndsWith (s suf : String) : Bool :=
  s.data.reverse.take suf.data.length == suf.data.reverse

/-- The error kinds of the Link Resolver; the specification classifies the
message "Please paste a Google Sheets link." and "Invalid URL. Paste a
valid Google Sheets link." as invalid-link failures and "Only Google
Sheets links are supported." as the unsupported-link failure. -/
inductive LinkError where
  | invalidLink (msg : String)
  | unsupportedLink (msg : String)
deriving DecidableEq, Repr

/-- The value returned by `parseGoogleSheetLink`. -/
structure ParsedLink where
  raw : String
  url : UrlModel
  displayUrl : String
deriving DecidableEq, Repr

/-- Embedding of `parseGoogleSheetLink` (src/projstat.js:40-75). -/
def parseGoogleSheetLink (rawValue : String) : Except LinkError ParsedLink :=
  let trimmed := jsTrim rawValue
  if trimmed = "" then
    .error (.invalidLink "Please paste a Google Sheets link.")
  else if 30 ≤ trimmed.length ∧ trimmed.data.all isIdChar then
    let url := bareIdUrl trimmed
    .ok { raw := trimmed, url := url, displayUrl := urlToString url }
  else
    let withProtocol := if hasHttpScheme trimmed then trimmed else "https://" ++ trimmed
    let urlRes : Except LinkError UrlModel :=
      match parseUrl withProtocol with
      | some u => .ok u
      | none =>
        let rawId := extractSheetIdFromRaw trimmed
        if rawId = "" then .error (.invalidLink "Invalid URL. Paste a valid Google Sheets link.")
        else .ok (bareIdUrl rawId)
    match urlRes with
    | .error e => .error e
    | .ok url =>
      let isDocsHost := url.hostname == "docs.google.com" || strEndsWith url.hostname ".docs.google.com"
      let isDriveHost := url.hostname == "drive.google.com" || strEndsWith url.hostname ".drive.google.com"
      let hasRawId := extractSheetId url ≠ "" ∨ extractSheetIdFromRaw trimmed ≠ ""
      if (!isDocsHost && !isDriveHost) = true ∧ ¬hasRawId then
        .error (.unsupportedLink "Only Google Sheets links are supported.")
      else
        .ok { raw := trimmed, url := url, displayUrl := withProtocol }

/-- The canonical sheet reference produced by `getSheetSource`. -/
structure SheetSource where
  sheetId : String
  gid : String
  sheet : String
deriving DecidableEq, Repr

/-- Embedding of `getSheetSource` (src/projstat.js:120-133). -/
def getSheetSource (url : UrlModel) (rawValue : String) : Except String SheetSource :=
  let sheetId := jsOrStr (extractSheetId url) (extractSheetIdFromRaw rawValue)
  if sheetId = "" then .error "Unable to read this Google Sheets link."
  else
    let hashStr : String :=
      match url.hash.data with
      | '#' :: t => String.mk t
      | _ => url.hash
    let hashParams := parseQuery hashStr
    let searchParams := parseQuery url.search
    .ok { sheetId := sheetId,
          gid := jsTrim (jsOrStr (paramGet searchParams "gid") (paramGet hashParams "gid")),
          sheet := jsTrim (jsOrStr (paramGet searchParams "sheet") (paramGet hashParams "sheet")) }

/-- Embedding of `buildOpenSheetApiUrl` (src/projstat.js:174-180): empty
when no tab name is known, otherwise the mirror URL (the
percent-encoding of the two path segments is not modelled; no claim
depends on the exact text, only on its emptiness). -/
def buildOpenSheetApiUrl (source : SheetSource) : String :=
  if source.sheet = "" then ""
  else "https://opensheet.elk.sh/" ++ source.sheetId ++ "/" ++ source.sheet

/-- Errors escaping `fetchSheetMappedData`: the terminal unavailable
error thrown after the cascade is exhausted, and an exception raised by
the un-guarded OpenSheet strategy (its `fetch` or its `json()` call). -/
inductive CascadeError where
  | unavailable
  | mirrorError (msg : String)
deriving DecidableEq, Repr

/-- Message of the terminal unavailable error (src/projstat.js:376). -/
def unavailableMessage : String :=
  "Unable to load sheet data. Make sure the sheet is shared to Anyone with the link (Viewer) or published to the web."

/-- Observable outcome of one of the three guarded strategies (gviz
fetch, JSONP, CSV export): either the strategy produced a normalized
table, or it failed — by throwing the recorded message, by a non-ok
response, or by a payload without a table — and its whole body fell
through to the next strategy under the surrounding `try`/`catch`. -/
inductive StratOutcome where
  | success (t : Table)
  | failed (msg : Option String)
deriving DecidableEq, Repr

/-- Body returned by the OpenSheet mirror once its `json()` promise
resolves: an array of records (objects modelled as ordered key-value
lists, values already stringified) or any non-array value. -/
inductive OpenSheetJson where
  | arr (rows : List RowObj)
  | nonArray
deriving DecidableEq, Repr

/-- Observable behaviour of the OpenSheet mirror request: the `fetch`
itself may throw, otherwise it yields an ok-flag and the outcome of
reading the body as JSON (which may itself throw). -/
structure OpenSheetResp where
  ok : Bool
  body : Except String OpenSheetJson
deriving DecidableEq, Repr

/-- The network environment of one run of the Transport Cascade: what
each strategy's I/O would observably do if attempted. -/
structure CascadeEnv where
  gviz : StratOutcome
  jsonp : StratOutcome
  csv : StratOutcome
  mirror : Except String OpenSheetResp
deriving DecidableEq, Repr

/-- Embedding of `fetchSheetMappedData` (src/projstat.js:319-377) over an
explicit network environment. The three guarded strategies fall through
on failure; the OpenSheet strategy runs only when a tab name is known,
its thrown errors propagate (its body sits outside every `try` block),
and a non-ok response or a non-array/empty body falls to the terminal
unavailable error. -/
def fetchSheetMappedData (source : SheetSource) (env : CascadeEnv) : Except CascadeError Table :=
  match env.gviz with
  | .success t => .ok t
  | .failed _ =>
    match env.jsonp with
    | .success t => .ok t
    | .failed _ =>
      match env.csv with
      | .success t => .ok t
      | .failed _ =>
        if buildOpenSheetApiUrl source ≠ "" then
          match env.mirror with
          | .error e => .error (.mirrorError e)
          | .ok resp =>
            if resp.ok then
              match resp.body with
              | .error e => .error (.mirrorError e)
              | .ok (.arr (first :: rest)) => .ok (mapOpenSheetRows (first :: rest))
              | .ok (.arr []) => .error .unavailable
              | .ok .nonArray => .error .unavailable
            else .error .unavailable
        else .error .unavailable

/-- Alias lists of `COLUMN_ALIASES` (src/projstat.js:3-8). -/
def COLUMN_ALIASES.system : List String :=
  ["system", "project name", "system project name", "system (project name)"]

/-- Alias list for the milestone role. -/
def COLUMN_ALIASES.milestone : List String :=
  ["milestone", "next milestone"]

/-- Alias list for the developer role. -/
def COLUMN_ALIASES.developer : List String :=
  ["assigned developer", "developer"]

/-- Alias list for the manager role. -/
def COLUMN_ALIASES.manager : List String :=
  ["assigned project manager", "project manager"]

/-- Embedding of the JS substring test `a.includes(b)`. -/
def jsIncludesAux (sub : List Char) : List Char → Bool
  | [] => sub.isEmpty
  | c :: rest => litMatchesAt sub (c :: rest) || jsIncludesAux sub rest

/-- Whether `sub` occurs as a contiguous substring of `s`. -/
def jsIncludes (s sub : String) : Bool :=
  jsIncludesAux sub.data s.data

/-- Embedding of `findColumnKey` (src/projstat.js:379-393): normalize the
aliases, look for an exact key match trying aliases in order, then for a
bidirectional substring match trying aliases in order, and yield the
empty string when neither pass matches. -/
def findColumnKey (columns : List Column) (aliases : List String) : String :=
  let normalizedAliases := aliases.map normalizeHeader
  match normalizedAliases.findSome? (fun a =>
      (columns.find? (fun column => column.key == a)).map (fun column => column.key)) with
  | some k => k
  | none =>
    match normalizedAliases.findSome? (fun a =>
        (columns.find? (fun column =>
          jsIncludes column.key a || jsIncludes a column.key)).map
            (fun column => column.key)) with
    | some k => k
    | none => ""

/-- The role-to-key map produced by `determineFilterColumns`. -/
structure FilterColumns where
  system : String
  milestone : String
  developer : String
  manager : String
deriving DecidableEq, Repr

/-- Embedding of `determineFilterColumns` (src/projstat.js:426-438):
alias matching per role, with the positional fallbacks
`|| columns[0]?.key || ""` for the system role and
`|| columns[1]?.key || columns[0]?.key || ""` for the milestone role. -/
def determineFilterColumns (columns : List Column) : FilterColumns :=
  { system := jsOrStr (findColumnKey columns COLUMN_ALIASES.system)
      (((columns.get? 0).map Column.key).getD ""),
    milestone := jsOrStr (findColumnKey columns COLUMN_ALIASES.milestone)
      (jsOrStr (((columns.get? 1).map Column.key).getD "")
        (((columns.get? 0).map Column.key).getD "")),
    developer := findColumnKey columns COLUMN_ALIASES.developer,
    manager := findColumnKey columns COLUMN_ALIASES.manager }

/-- The filter selections held in the session state. -/
structure Filters where
  system : String
  milestone : String
  search : String
deriving DecidableEq, Repr

/-- Embedding of `rowMatchesSearch` (src/projstat.js:477-488): an empty
query matches everything; otherwise some non-empty role-mapped column
must contain the query in its lowercased value. -/
def rowMatchesSearch (fc : FilterColumns) (row : RowObj) (query : String) : Bool :=
  if query = "" then true
  else
    ([fc.system, fc.milestone, fc.developer, fc.manager].filter (fun k => k ≠ "")).any
      (fun key => jsIncludes (jsToLowerStr (rowVal row key)) query)

/-- Embedding of the row predicate of `applyFilters`
(src/projstat.js:520-537): a truthy system selection must equal the
row's mapped system value, a truthy milestone selection must equal the
row's mapped milestone value, and the trimmed lowercased search text
must match. -/
def applyFilters (filters : Filters) (fc : FilterColumns) (rows : List RowObj) : List RowObj :=
  let searchQuery := jsToLowerStr (jsTrim filters.search)
  rows.filter (fun row =>
    (filters.system == "" || rowVal row fc.system == filters.system) &&
    (filters.milestone == "" || rowVal row fc.milestone == filters.milestone) &&
    rowMatchesSearch fc row searchQuery)

/-- The column key every normalizer shape derives for a header at a
position: the normalized header text, or the positional placeholder when
that normalization is empty. -/
def derivedKey (label : String) (index : Nat) : String :=
  jsOrStr (normalizeHeader label) ("column " ++ toString (index + 1))

theorem parseCsvLineAux_length :
    ∀ (l : List Char) (q : Bool) (cur : List Char) (acc : List (List Char)),
    acc.length + 1 ≤ (parseCsvLineAux l q cur acc).length := by
  intro l q cur acc
  induction l, q, cur, acc using parseCsvLineAux.induct <;>
    (simp_all [parseCsvLineAux]; try omega)

/-- C3: parsing the CSV text `a,"b,c",d` / `1,"2,2",3` yields exactly the
three columns labelled `a`, `b,c`, `d` (the middle key is the normalized
header) and one data row carrying "1", "2,2", "3" under them; a doubled
quote inside a quoted field denotes one literal quote character; missing
trailing fields map to the empty string; every data value is trimmed. -/
theorem csv_normalization_example :
    parseCsvText "a,\"b,c\",d\n1,\"2,2\",3" =
      .ok { columns := [⟨"a", "a", "string"⟩, ⟨"b c", "b,c", "string"⟩, ⟨"d", "d", "string"⟩],
            rows := [[("a", "1"), ("b c", "2,2"), ("d", "3")]] } ∧
    parseCsvLine "x,\"he said \"\"hi\"\"\",y" = ["x", "he said \"hi\"", "y"] ∧
    parseCsvText "a,b\n1" =
      .ok { columns := [⟨"a", "a", "string"⟩, ⟨"b", "b", "string"⟩],
            rows := [[("a", "1"), ("b", "")]] } ∧
    parseCsvText "a\n  1  " =
      .ok { columns := [⟨"a", "a", "string"⟩], rows := [[("a", "1")]] } :=
  ⟨by rfl, by rfl, by rfl, by rfl⟩

/-- C10: the CSV line parser is total and always returns at least one
field — stated over every input line — and an unterminated quote simply
consumes the rest of the line, commas included, into the current field. -/
theorem parseCsvLine_total :
    (∀ line : String, 1 ≤ (parseCsvLine line).length) ∧
    parseCsvLine "a,\"b,c" = ["a", "b,c"] := by
  refine ⟨fun line => ?_, by rfl⟩
  have h := parseCsvLineAux_length line.data false [] []
  simpa [parseCsvLine] using h

/-- C1 (amended): in all three normalizer shapes the column keys are the
deterministic positional function `derivedKey` of the header text — the
positional placeholder is used only when a header's normalized text is
empty — and therefore the keys are pairwise distinct exactly when the
derived keys are; no collision-resolving suffix exists. -/
theorem normalizer_keys_deterministic :
    (∀ locale payload, (mapPayload locale payload).columns.map Column.key =
        ((payload.table.map GTable.cols).getD []).enum.map (fun p => derivedKey p.2.label p.1)) ∧
    (∀ locale payload,
      ((((payload.table.map GTable.cols).getD []).enum.map
          (fun p => derivedKey p.2.label p.1)).Nodup) →
      ((mapPayload locale payload).columns.map Column.key).Nodup) ∧
    (∀ csvText t, parseCsvText csvText = .ok t →
      t.columns.map Column.key =
        (parseCsvLine (((splitJsLines (stripBom csvText)).filter
            (fun line => jsTrim line ≠ "")).headD "")).enum.map (fun p => derivedKey p.2 p.1)) ∧
    (∀ rows, (mapOpenSheetRows rows).columns.map Column.key =
        (rows.headD []).enum.map (fun p => derivedKey p.2.1 p.1)) := by
  have h1 : ∀ (locale : Nat → Nat → Nat → String) (payload : Payload),
      (mapPayload locale payload).columns.map Column.key =
        ((payload.table.map GTable.cols).getD []).enum.map (fun p => derivedKey p.2.label p.1) := by
    intro locale payload
    simp only [mapPayload, List.map_map]
    rfl
  refine ⟨h1, fun locale payload h => ?_, fun csvText t h => ?_, fun rows => ?_⟩
  · rw [h1]; exact h
  · revert h
    unfold parseCsvText
    cases hl : (splitJsLines (stripBom csvText)).filter (fun line => jsTrim line ≠ "") with
    | nil => intro h; cases h
    | cons hd tl =>
      intro h
      have ht : t = { columns := (parseCsvLine hd).enum.map (fun p =>
          { key := jsOrStr (normalizeHeader p.2) ("column " ++ toString (p.1 + 1)),
            label := jsTrim (jsOrStr p.2 ("Column " ++ toString (p.1 + 1))),
            type := "string" : Column }), rows := tl.map (fun line =>
          let values := parseCsvLine line
          (((parseCsvLine hd).enum.map (fun p =>
            { key := jsOrStr (normalizeHeader p.2) ("column " ++ toString (p.1 + 1)),
              label := jsTrim (jsOrStr p.2 ("Column " ++ toString (p.1 + 1))),
              type := "string" : Column })).enum).foldl (fun mapped p =>
            objSet mapped p.2.key (jsTrim ((values.get? p.1).getD ""))) []) } := by
        cases h; rfl
      rw [ht]
      simp only [List.headD_cons, List.map_map]
      rfl
  · simp only [mapOpenSheetRows, List.map_map]
    rfl

/-- C1 counterexample: two headers whose texts normalize to the same key
("A" and "a") produce the duplicate key list ["a", "a"] — the collision
is not resolved by any positional suffix. -/
theorem mapPayload_duplicate_keys_cex :
    ((mapPayload (fun _ _ _ => "")
        { table := some { cols := [{ label := "A" }, { label := "a" }], rows := [] } }).columns.map
        Column.key = ["a", "a"]) ∧
    ¬ ((mapPayload (fun _ _ _ => "")
        { table := some { cols := [{ label := "A" }, { label := "a" }], rows := [] } }).columns.map
        Column.key).Nodup :=
  ⟨by rfl, by decide⟩

theorem normalizer_keys_deterministic_witness :
    ((mapPayload (fun _ _ _ => "")
        { table := some { cols := [{ label := "Alpha" }, { label := "Beta" }], rows := [] } }).columns.map
        Column.key).Nodup :=
  normalizer_keys_deterministic.2.1 (fun _ _ _ => "")
    { table := some { cols := [{ label := "Alpha" }, { label := "Beta" }], rows := [] } }
    (by decide)

/-- C9: normalization is deterministic — the embedded `mapPayload` is a
pure function of the payload (its key generation draws on no clock and
no randomness), so two runs on equal payloads agree structurally on
columns and rows. -/
theorem mapPayload_deterministic :
    ∀ (locale : Nat → Nat → Nat → String) (p q : Payload), p = q →
      (mapPayload locale p).columns = (mapPayload locale q).columns ∧
      (mapPayload locale p).rows = (mapPayload locale q).rows := by
  intro locale p q h
  subst h
  exact ⟨rfl, rfl⟩

theorem mapPayload_deterministic_witness :
    (mapPayload (fun _ _ _ => "")
        { table := some { cols := [{ label := "X" }],
                          rows := [{ c := some [some { v := some (.num 1) }] }] } }).columns =
      (mapPayload (fun _ _ _ => "")
        { table := some { cols := [{ label := "X" }],
                          rows := [{ c := some [some { v := some (.num 1) }] }] } }).columns ∧
    (mapPayload (fun _ _ _ => "")
        { table := some { cols := [{ label := "X" }],
                          rows := [{ c := some [some { v := some (.num 1) }] }] } }).rows =
      (mapPayload (fun _ _ _ => "")
        { table := some { cols := [{ label := "X" }],
                          rows := [{ c := some [some { v := some (.num 1) }] }] } }).rows :=
  mapPayload_deterministic (fun _ _ _ => "") _ _ rfl

theorem buildOpenSheetApiUrl_empty_iff (source : SheetSource) :
    buildOpenSheetApiUrl source = "" ↔ source.sheet = "" := by
  unfold buildOpenSheetApiUrl
  split
  · simp_all
  · rename_i hs
    constructor
    · intro h
      have hd := congrArg String.data h
      simp only [String.data_append, List.append_eq_nil] at hd
      exact absurd hd.1.1.1 (by decide)
    · intro h
      exact absurd h hs

/-- C2 (amended): the cascade raises its terminal unavailable error only
after the three guarded strategies have each failed and the mirror
strategy was inapplicable or yielded no usable payload without throwing;
the guarded strategies' own error messages never influence the result —
but a mirror exception does propagate in place of the unavailable
error. -/
theorem cascade_unavailable_only_after_strategies :
    (∀ source env, fetchSheetMappedData source env = .error .unavailable →
      (∃ m1, env.gviz = .failed m1) ∧ (∃ m2, env.jsonp = .failed m2) ∧
      (∃ m3, env.csv = .failed m3) ∧
      (source.sheet = "" ∨ ∃ resp, env.mirror = .ok resp ∧
        (resp.ok = false ∨ resp.body = .ok .nonArray ∨ resp.body = .ok (.arr [])))) ∧
    (∀ source mir m1 m2 m3 m1' m2' m3',
      fetchSheetMappedData source ⟨.failed m1, .failed m2, .failed m3, mir⟩ =
        fetchSheetMappedData source ⟨.failed m1', .failed m2', .failed m3', mir⟩) := by
  constructor
  · intro source env h
    obtain ⟨g, j, c, mir⟩ := env
    cases g with
    | success t => simp [fetchSheetMappedData] at h
    | failed m1 =>
      cases j with
      | success t => simp [fetchSheetMappedData] at h
      | failed m2 =>
        cases c with
        | success t => simp [fetchSheetMappedData] at h
        | failed m3 =>
          refine ⟨⟨m1, rfl⟩, ⟨m2, rfl⟩, ⟨m3, rfl⟩, ?_⟩
          by_cases hs : source.sheet = ""
          · exact Or.inl hs
          · simp only [fetchSheetMappedData] at h
            rw [if_pos (fun hurl => hs ((buildOpenSheetApiUrl_empty_iff source).mp hurl))] at h
            cases mir with
            | error e => simp at h
            | ok resp =>
              obtain ⟨rok, body⟩ := resp
              cases rok with
              | false => exact Or.inr ⟨⟨false, body⟩, rfl, Or.inl rfl⟩
              | true =>
                cases body with
                | error e => simp at h
                | ok jv =>
                  cases jv with
                  | nonArray => exact Or.inr ⟨⟨true, .ok .nonArray⟩, rfl, Or.inr (Or.inl rfl)⟩
                  | arr rows =>
                    cases rows with
                    | nil => exact Or.inr ⟨⟨true, .ok (.arr [])⟩, rfl, Or.inr (Or.inr rfl)⟩
                    | cons f r => simp at h
  · intro source mir m1 m2 m3 m1' m2' m3'
    rfl

/-- C2 counterexample: with a tab name known and the three guarded
strategies fallen through, an exception thrown by the mirror fetch
escapes `fetchSheetMappedData` as itself — not as the unavailable
error. -/
theorem cascade_mirror_error_propagates_cex :
    fetchSheetMappedData ⟨"abc", "", "Tab"⟩
        ⟨.failed none, .failed none, .failed none, .error "Failed to fetch"⟩ =
      .error (.mirrorError "Failed to fetch") ∧
    CascadeError.mirrorError "Failed to fetch" ≠ CascadeError.unavailable :=
  ⟨by rfl, by decide⟩

theorem cascade_unavailable_only_after_strategies_witness :
    (∃ m1, (CascadeEnv.mk (.failed (some "gviz 404")) (.failed none) (.failed none)
        (.ok ⟨false, .ok .nonArray⟩)).gviz = .failed m1) ∧
    (∃ m2, (CascadeEnv.mk (.failed (some "gviz 404")) (.failed none) (.failed none)
        (.ok ⟨false, .ok .nonArray⟩)).jsonp = .failed m2) ∧
    (∃ m3, (CascadeEnv.mk (.failed (some "gviz 404")) (.failed none) (.failed none)
        (.ok ⟨false, .ok .nonArray⟩)).csv = .failed m3) ∧
    ((SheetSource.mk "abc" "" "Tab").sheet = "" ∨
      ∃ resp, (CascadeEnv.mk (.failed (some "gviz 404")) (.failed none) (.failed none)
          (.ok ⟨false, .ok .nonArray⟩)).mirror = .ok resp ∧
        (resp.ok = false ∨ resp.body = .ok .nonArray ∨ resp.body = .ok (.arr []))) :=
  cascade_unavailable_only_after_strategies.1 ⟨"abc", "", "Tab"⟩
    (CascadeEnv.mk (.failed (some "gviz 404")) (.failed none) (.failed none)
      (.ok ⟨false, .ok .nonArray⟩)) (by rfl)

/-- C6: the Link Resolver fails with the invalid-link error on empty or
whitespace-only input, and with the unsupported-link error on
`https://example.com/not-a-sheet`, a parseable URL that is neither a
Google host nor a source of an extractable identifier. -/
theorem link_resolver_error_classification :
    (∀ s : String, jsTrim s = "" →
      parseGoogleSheetLink s = .error (.invalidLink "Please paste a Google Sheets link.")) ∧
    parseGoogleSheetLink "https://example.com/not-a-sheet" =
      .error (.unsupportedLink "Only Google Sheets links are supported.") := by
  constructor
  · intro s h
    unfold parseGoogleSheetLink
    rw [h]
    rfl
  · rfl

theorem link_resolver_error_classification_witness :
    parseGoogleSheetLink "   " = .error (.invalidLink "Please paste a Google Sheets link.") :=
  link_resolver_error_classification.1 "   " (by decide)

/-- C8: a row survives `applyFilters` (with empty search text) exactly
when a truthy system selection equals its mapped system value and a
truthy milestone selection equals its mapped milestone value; the
all-empty selection filters nothing. -/
theorem applyFilters_spec :
    (∀ (rows : List RowObj) (fc : FilterColumns) (sys mil : String) (row : RowObj),
      row ∈ applyFilters ⟨sys, mil, ""⟩ fc rows ↔
        (row ∈ rows ∧ (sys ≠ "" → rowVal row fc.system = sys) ∧
          (mil ≠ "" → rowVal row fc.milestone = mil))) ∧
    (∀ (rows : List RowObj) (fc : FilterColumns), applyFilters ⟨"", "", ""⟩ fc rows = rows) := by
  constructor
  · intro rows fc sys mil row
    have hq : ∀ r : RowObj, rowMatchesSearch fc r (jsToLowerStr (jsTrim "")) = true :=
      fun r => rfl
    simp only [applyFilters, List.mem_filter, hq, Bool.and_true, Bool.and_eq_true,
      Bool.or_eq_true, beq_iff_eq, or_iff_not_imp_left, ne_eq, and_assoc]
  · intro rows fc
    simp only [applyFilters]
    apply List.filter_eq_self.mpr
    intro a _
    rfl

theorem applyFilters_spec_witness :
    [("s", "x")] ∈ applyFilters ⟨"x", "", ""⟩ ⟨"s", "m", "", ""⟩ [[("s", "x")], [("s", "y")]] :=
  (applyFilters_spec.1 [[("s", "x")], [("s", "y")]] ⟨"s", "m", "", ""⟩ "x" "" [("s", "x")]).mpr
    ⟨by decide, fun _ => by decide, fun h => absurd rfl h⟩

theorem formatCellValue_raw (locale : Nat → Nat → Nat → String) (ctype : String) (c : Cell)
    (hf : ∀ s, c.f = some (.str s) → jsTrim s = "") :
    formatCellValue locale (some c) ctype = formatRawValue locale c.v ctype := by
  obtain ⟨f, v⟩ := c
  cases f with
  | none => rfl
  | some fv =>
    cases fv with
    | str s =>
      have h := hf s rfl
      simp [formatCellValue, h]
    | num n => rfl
    | boolean b => rfl

/-- C4: a cell formats to its non-empty display string verbatim when one
is present; otherwise a missing raw value gives the empty string; a
date-typed cell whose raw string matches the serialized `Date(Y,M,D...)`
pattern gives the locale rendering of that year, zero-based month and
day — concretely `Date(2024,0,15)` gives `locale 2024 0 15` — and every
other raw value is stringified directly. -/
theorem formatCellValue_spec :
    (∀ (locale : Nat → Nat → Nat → String) (ctype : String) (c : Cell) (s : String),
      c.f = some (.str s) → jsTrim s ≠ "" → formatCellValue locale (some c) ctype = s) ∧
    (∀ (locale : Nat → Nat → Nat → String) (ctype : String),
      formatCellValue locale none ctype = "") ∧
    (∀ (locale : Nat → Nat → Nat → String) (ctype : String) (c : Cell),
      (∀ s, c.f = some (.str s) → jsTrim s = "") → c.v = none →
      formatCellValue locale (some c) ctype = "") ∧
    (∀ (locale : Nat → Nat → Nat → String) (c : Cell) (s : String) (y m d : Nat),
      (∀ s', c.f = some (.str s') → jsTrim s' = "") →
      c.v = some (.str s) → matchDatePattern s = some (y, m, d) →
      formatCellValue locale (some c) "date" = locale y m d) ∧
    (∀ (locale : Nat → Nat → Nat → String) (ctype : String) (c : Cell) (v : JsValue),
      (∀ s', c.f = some (.str s') → jsTrim s' = "") →
      c.v = some v → ctype ≠ "date" → formatCellValue locale (some c) ctype = jsToString v) ∧
    (∀ (locale : Nat → Nat → Nat → String) (c : Cell) (s : String),
      (∀ s', c.f = some (.str s') → jsTrim s' = "") →
      c.v = some (.str s) → matchDatePattern s = none →
      formatCellValue locale (some c) "date" = s) ∧
    (∀ locale : Nat → Nat → Nat → String,
      formatCellValue locale (some { f := none, v := some (.str "Date(2024,0,15)") }) "date" =
        locale 2024 0 15) := by
  refine ⟨?_, ?_, ?_, ?_, ?_, ?_, ?_⟩
  · intro locale ctype c s hf hs
    simp [formatCellValue, hf, hs]
  · intro locale ctype
    rfl
  · intro locale ctype c hf hv
    rw [formatCellValue_raw locale ctype c hf, hv]
    rfl
  · intro locale c s y m d hf hv hp
    rw [formatCellValue_raw locale "date" c hf, hv]
    simp [formatRawValue, hp]
  · intro locale ctype c v hf hv hd
    rw [formatCellValue_raw locale ctype c hf, hv]
    cases v <;> simp [formatRawValue, jsToString, hd]
  · intro locale c s hf hv hp
    rw [formatCellValue_raw locale "date" c hf, hv]
    simp [formatRawValue, hp, jsToString]
  · intro locale
    rfl

theorem formatCellValue_spec_witness :
    formatCellValue (fun _ _ _ => "") (some { f := some (.str "display"), v := some (.num 3) })
      "string" = "display" :=
  formatCellValue_spec.1 (fun _ _ _ => "") "string"
    { f := some (.str "display"), v := some (.num 3) } "display" rfl (by decide)

/-- C7: the Facet Resolver tries exact key/alias matches before
bidirectional substring matches and aliases in declared order; unmatched
roles stay empty except the positional fallbacks of the system and
milestone roles; and the header "Assigned Project Manager" normalizes to
"assigned project manager" and resolves to the manager role. -/
theorem facet_resolver_spec :
    (∀ (columns : List Column) (aliases : List String),
      (∃ a ∈ aliases, ∃ c ∈ columns, c.key = normalizeHeader a) →
      ∃ a ∈ aliases, ∃ c ∈ columns,
        findColumnKey columns aliases = c.key ∧ c.key = normalizeHeader a) ∧
    (∀ (columns : List Column) (a : String) (rest : List String) (c : Column),
      columns.find? (fun column => column.key == normalizeHeader a) = some c →
      findColumnKey columns (a :: rest) = c.key) ∧
    (∀ (columns : List Column) (aliases : List String),
      (∀ a ∈ aliases, ∀ c ∈ columns, ¬(c.key = normalizeHeader a) ∧
        ¬(jsIncludes c.key (normalizeHeader a) = true ∨
          jsIncludes (normalizeHeader a) c.key = true)) →
      findColumnKey columns aliases = "") ∧
    (∀ (columns : List Column) (c0 : Column), columns.get? 0 = some c0 →
      findColumnKey columns COLUMN_ALIASES.system = "" →
      (determineFilterColumns columns).system = c0.key) ∧
    (∀ (columns : List Column) (c1 : Column), columns.get? 1 = some c1 → c1.key ≠ "" →
      findColumnKey columns COLUMN_ALIASES.milestone = "" →
      (determineFilterColumns columns).milestone = c1.key) ∧
    (∀ (columns : List Column) (c0 : Column), columns.get? 0 = some c0 →
      columns.get? 1 = none →
      findColumnKey columns COLUMN_ALIASES.milestone = "" →
      (determineFilterColumns columns).milestone = c0.key) ∧
    (∀ columns : List Column,
      (determineFilterColumns columns).developer =
        findColumnKey columns COLUMN_ALIASES.developer ∧
      (determineFilterColumns columns).manager =
        findColumnKey columns COLUMN_ALIASES.manager) ∧
    (normalizeHeader "Assigned Project Manager" = "assigned project manager" ∧
      (determineFilterColumns
        [⟨"assigned project manager", "Assigned Project Manager", "string"⟩]).manager =
        "assigned project manager") := by
  refine ⟨?_, ?_, ?_, ?_, ?_, ?_, ?_, by decide, by decide⟩
  · intro columns aliases ⟨a, ha, c, hc, hkey⟩
    cases hfs : (aliases.map normalizeHeader).findSome? (fun x =>
        (columns.find? (fun column => column.key == x)).map (fun column => column.key)) with
    | none =>
      exfalso
      rw [List.findSome?_eq_none_iff] at hfs
      have hx := hfs (normalizeHeader a) (List.mem_map_of_mem normalizeHeader ha)
      rw [Option.map_eq_none', List.find?_eq_none] at hx
      exact hx c hc (by simp [hkey])
    | some k =>
      obtain ⟨x, hxmem, hxeq⟩ := List.exists_of_findSome?_eq_some hfs
      rw [Option.map_eq_some'] at hxeq
      obtain ⟨col, hfind, hkeq⟩ := hxeq
      obtain ⟨a2, ha2, hxa⟩ := List.mem_map.mp hxmem
      have hcolkey : col.key = x := by
        have := List.find?_some hfind
        exact beq_iff_eq.mp this
      refine ⟨a2, ha2, col, List.mem_of_find?_eq_some hfind, ?_, ?_⟩
      · simp only [findColumnKey, hfs]
        exact hkeq.symm
      · rw [hcolkey, hxa]
  · intro columns a rest c hfind
    have hsome : ((columns.find? (fun column =>
        column.key == normalizeHeader a)).map (fun column => column.key)) = some c.key := by
      rw [hfind]
      rfl
    simp only [findColumnKey, List.map_cons]
    rw [List.findSome?_cons_of_isSome _ (by rw [hsome]; rfl), hsome]
  · intro columns aliases h
    have h1 : (aliases.map normalizeHeader).findSome? (fun x =>
        (columns.find? (fun column => column.key == x)).map (fun column => column.key)) = none := by
      rw [List.findSome?_eq_none_iff]
      intro x hx
      obtain ⟨a, ha, rfl⟩ := List.mem_map.mp hx
      rw [Option.map_eq_none', List.find?_eq_none]
      intro col hcol
      simp only [beq_iff_eq]
      exact (h a ha col hcol).1
    have h2 : (aliases.map normalizeHeader).findSome? (fun x =>
        (columns.find? (fun column =>
          jsIncludes column.key x || jsIncludes x column.key)).map
            (fun column => column.key)) = none := by
      rw [List.findSome?_eq_none_iff]
      intro x hx
      obtain ⟨a, ha, rfl⟩ := List.mem_map.mp hx
      rw [Option.map_eq_none', List.find?_eq_none]
      intro col hcol
      simp only [Bool.or_eq_true]
      exact (h a ha col hcol).2
    simp only [findColumnKey, h1, h2]
  · intro columns c0 h0 hfind
    rw [List.get?_eq_getElem?] at h0
    simp [determineFilterColumns, jsOrStr, hfind, h0]
  · intro columns c1 h1 hkey hfind
    rw [List.get?_eq_getElem?] at h1
    simp [determineFilterColumns, jsOrStr, hfind, h1, hkey]
  · intro columns c0 h0 h1 hfind
    rw [List.get?_eq_getElem?] at h0
    rw [List.get?_eq_getElem?] at h1
    simp [determineFilterColumns, jsOrStr, hfind, h0, h1]
  · intro columns
    exact ⟨rfl, rfl⟩

theorem facet_resolver_spec_witness :
    findColumnKey [⟨"milestone", "Milestone", "string"⟩] ["milestone", "next milestone"] =
      "milestone" :=
  facet_resolver_spec.2.1 [⟨"milestone", "Milestone", "string"⟩] "milestone" ["next milestone"]
    ⟨"milestone", "Milestone", "string"⟩ (by decide)

theorem takeWhile_append_of_all {α : Type} {p : α → Bool} (l₁ l₂ : List α)
    (h : ∀ c ∈ l₁, p c = true) :
    (l₁ ++ l₂).takeWhile p = l₁ ++ l₂.takeWhile p := by
  induction l₁ with
  | nil => simp
  | cons c rest ih =>
    rw [List.cons_append, List.takeWhile_cons, h c (List.mem_cons_self c rest)]
    rw [ih (fun x hx => h x (List.mem_cons_of_mem c hx)), List.cons_append]
    rfl

theorem scanCaptureMin_cons (lits : List (List Char)) (minLen : Nat) (c : Char)
    (rest : List Char) :
    scanCaptureMin lits minLen (c :: rest) =
      match lits.find? (fun lit => litMatchesAt lit (c :: rest)) with
      | some lit =>
        if minLen ≤ (((c :: rest).drop lit.length).takeWhile isIdChar).length then
          some (((c :: rest).drop lit.length).takeWhile isIdChar)
        else scanCaptureMin lits minLen rest
      | none => scanCaptureMin lits minLen rest := by
  rfl

theorem scanCaptureMin_at_start (lit id suffix : List Char) (minLen : Nat) (hlit : lit ≠ [])
    (hid : ∀ x ∈ id, isIdChar x = true)
    (hsuf : suffix = [] ∨ ∃ d ds, suffix = d :: ds ∧ isIdChar d = false)
    (hmin : minLen ≤ id.length) :
    scanCaptureMin [lit] minLen (lit ++ (id ++ suffix)) = some id := by
  obtain ⟨c, lrest, rfl⟩ : ∃ c lrest, lit = c :: lrest := by
    cases lit with
    | nil => exact absurd rfl hlit
    | cons c lrest => exact ⟨c, lrest, rfl⟩
  have hmatch : litMatchesAt (c :: lrest) ((c :: lrest) ++ (id ++ suffix)) = true := by
    unfold litMatchesAt
    rw [List.take_left]
    exact beq_self_eq_true (c :: lrest)
  have hfind : [c :: lrest].find?
      (fun lit => litMatchesAt lit ((c :: lrest) ++ (id ++ suffix))) = some (c :: lrest) :=
    List.find?_cons_of_pos [] hmatch
  have hcap : (((c :: lrest) ++ (id ++ suffix)).drop (c :: lrest).length).takeWhile isIdChar
      = id := by
    rw [List.drop_left, takeWhile_append_of_all id suffix hid]
    rcases hsuf with rfl | ⟨d, ds, rfl, hd⟩
    · simp
    · rw [List.takeWhile_cons, hd]
      simp
  rw [List.cons_append]
  rw [scanCaptureMin_cons]
  rw [← List.cons_append]
  simp only [hfind, hcap]
  rw [if_pos hmin]

/-- C5: every input that trims to 30 or more identifier characters
(`[a-zA-Z0-9-_]`) resolves: the Link Resolver succeeds, keeps the
trimmed input as the raw identifier, and the derived sheet reference
carries exactly that string as its sheetId (with no tab selector). -/
theorem bare_identifier_resolves :
    ∀ s : String, 30 ≤ (jsTrim s).length → (∀ c ∈ (jsTrim s).data, isIdChar c = true) →
      ∃ link : ParsedLink, parseGoogleSheetLink s = .ok link ∧ link.raw = jsTrim s ∧
        getSheetSource link.url link.raw = .ok ⟨jsTrim s, "", ""⟩ := by
  intro s h30 hchars
  have htne : ¬(jsTrim s = "") := by
    intro h
    rw [h] at h30
    exact absurd h30 (by decide)
  have hcond : 30 ≤ (jsTrim s).length ∧ (jsTrim s).data.all isIdChar = true :=
    ⟨h30, List.all_eq_true.mpr hchars⟩
  have hres : parseGoogleSheetLink s =
      .ok { raw := jsTrim s, url := bareIdUrl (jsTrim s),
            displayUrl := urlToString (bareIdUrl (jsTrim s)) } := by
    simp only [parseGoogleSheetLink]
    rw [if_neg htne, if_pos hcond]
  have hpathdata : ("/spreadsheets/d/" ++ jsTrim s ++ "/edit").data =
      "/spreadsheets/d/".data ++ ((jsTrim s).data ++ "/edit".data) := by
    simp [String.data_append, List.append_assoc]
  have hscan : scanCaptureMin ["/spreadsheets/d/".data] 1
      ("/spreadsheets/d/".data ++ ((jsTrim s).data ++ "/edit".data)) = some (jsTrim s).data := by
    apply scanCaptureMin_at_start
    · decide
    · exact hchars
    · exact Or.inr ⟨'/', "edit".data, by decide, by decide⟩
    · have : (jsTrim s).length = (jsTrim s).data.length := rfl
      omega
  have hextract : extractSheetId (bareIdUrl (jsTrim s)) = jsTrim s := by
    simp only [extractSheetId, bareIdUrl]
    rw [hpathdata, hscan]
  have hsrc : getSheetSource (bareIdUrl (jsTrim s)) (jsTrim s) =
      .ok { sheetId := jsTrim s, gid := "", sheet := "" } := by
    simp only [getSheetSource, hextract, jsOrStr, if_neg htne]
    rfl
  exact ⟨_, hres, rfl, hsrc⟩

theorem bare_identifier_resolves_witness :
    ∃ link : ParsedLink,
      parseGoogleSheetLink "abcdefghijklmnopqrstuvwxyz0123" = .ok link ∧
      link.raw = jsTrim "abcdefghijklmnopqrstuvwxyz0123" ∧
      getSheetSource link.url link.raw =
        .ok ⟨jsTrim "abcdefghijklmnopqrstuvwxyz0123", "", ""⟩ :=
  bare_identifier_resolves "abcdefghijklmnopqrstuvwxyz0123" (by decide) (by decide)
